import Mathlib

/-!
Verification of the txaio-etcd client library against its design
specification.  The Python source is shallowly embedded: byte strings
become `List Nat` (each element a byte value 0..255 by construction),
Python dicts with insertion order become association lists, fallible
code returns `Except`/`Option`, and the network is modelled by passing
the response of each round trip as an explicit argument while a Bool
records whether a round trip was performed.
-/

namespace TxaioEtcd

/-- Byte strings, as in Python `bytes`: a list of byte values. -/
abbrev Bytes := List Nat

/-- Embedding of `_increment_last_byte` (src/txaioetcd/_types.py).
Python mutates a bytearray: `s[-1] = s[-1] + 1`.  On an empty byte
string this raises IndexError, and when the last octet equals 0xFF the
assignment of 256 raises ValueError; both are modelled as `none`. -/
def increment_last_byte (s : Bytes) : Option Bytes :=
  match s.getLast? with
  | none => none
  | some b => if b + 1 ≤ 255 then some (s.dropLast ++ [b + 1]) else none

/-- Lexicographic strict order on byte strings (the order etcd uses on
keys): compare byte by byte, a proper initial segment is smaller. -/
def lexLt : Bytes → Bytes → Bool
  | [], [] => false
  | [], _ :: _ => true
  | _ :: _, [] => false
  | a :: as, b :: bs => if a < b then true else if b < a then false else lexLt as bs

/-- Lexicographic order, non-strict. -/
def lexLe (x y : Bytes) : Bool := lexLt x y || x == y

/-- The three classifications of a `KeySet` (src/txaioetcd/_types.py). -/
inductive KeySetType
  | single
  | range
  | pfx
deriving DecidableEq, Repr

/-- Embedding of the `KeySet` value (fields set by `KeySet.__init__`). -/
structure KeySet where
  key : Bytes
  range_end : Option Bytes
  pfx : Bool
  type : KeySetType
deriving DecidableEq, Repr

/-- Python truthiness of an optional byte string: `None` and the empty
byte string are falsy. -/
def bytesTruthy : Option Bytes → Bool
  | none => false
  | some b => !b.isEmpty

/-- Embedding of `KeySet.__init__` (src/txaioetcd/_types.py lines
94-124).  Type checks on arguments are reflected by the Lean types; the
rejection of simultaneous truthy `prefix` and `range_end` becomes an
`Except.error`.  Classification uses Python truthiness: an empty
`range_end` classifies the set as single. -/
def KeySet.mk' (key : Bytes) (range_end : Option Bytes) (pfx : Bool) :
    Except String KeySet :=
  if pfx && bytesTruthy range_end then
    .error "either range_end or prefix can be set, but not both"
  else
    .ok { key := key, range_end := range_end, pfx := pfx,
          type := if pfx then .pfx
                  else if bytesTruthy range_end then .range
                  else .single }

/-- The JSON object produced by `KeySet._marshal`: the base64 encoding
of byte fields is modelled as the identity, so the object holds the
`key` field and, when present, the `range_end` field. -/
structure MarshaledKeySet where
  key : Bytes
  range_end : Option Bytes
deriving DecidableEq, Repr

/-- Embedding of `KeySet._marshal` (src/txaioetcd/_types.py lines
126-143).  For a prefix key set the range end is computed by
`increment_last_byte` (whose failure propagates); the `range_end`
field is included only when the computed value is truthy. -/
def KeySet.marshal (ks : KeySet) : Except String MarshaledKeySet :=
  match ks.type with
  | .single => .ok { key := ks.key, range_end := none }
  | .pfx =>
      match increment_last_byte ks.key with
      | none => .error "increment_last_byte failed"
      | some r =>
          .ok { key := ks.key,
                range_end := if bytesTruthy (some r) then some r else none }
  | .range =>
      .ok { key := ks.key,
            range_end := if bytesTruthy ks.range_end then ks.range_end else none }

/-! ## Wire records and response parsing

Integers arrive from the gateway as JSON decimal strings and are parsed
with `int(...)`; the embedding models a field that was present as the
already-parsed integer.  Base64 decoding of binary fields is modelled as
the identity on byte strings.  A JSON field that may be absent is an
`Option`. -/

/-- JSON shape of a response header, as read by `Header._parse`. -/
structure HeaderJson where
  raft_term : Option Int
  revision : Option Int
  cluster_id : Option Int
  member_id : Option Int
deriving DecidableEq, Repr

/-- Embedding of the `Header` record (src/txaioetcd/_types.py). -/
structure Header where
  raft_term : Option Int
  revision : Option Int
  cluster_id : Option Int
  member_id : Option Int
deriving DecidableEq, Repr

/-- Embedding of `Header._parse`: each field is taken when present,
`None` otherwise. -/
def Header.parse (o : HeaderJson) : Header :=
  { raft_term := o.raft_term, revision := o.revision,
    cluster_id := o.cluster_id, member_id := o.member_id }

/-- JSON shape of a key-value record, as read by `KeyValue._parse`. -/
structure KeyValueJson where
  key : Option Bytes
  value : Option Bytes
  version : Option Int
  create_revision : Option Int
  mod_revision : Option Int
deriving DecidableEq, Repr

/-- Embedding of the `KeyValue` record (src/txaioetcd/_types.py). -/
structure KeyValue where
  key : Option Bytes
  value : Option Bytes
  version : Option Int
  create_revision : Option Int
  mod_revision : Option Int
deriving DecidableEq, Repr

/-- Embedding of `KeyValue._parse`. -/
def KeyValue.parse (o : KeyValueJson) : KeyValue :=
  { key := o.key, value := o.value, version := o.version,
    create_revision := o.create_revision, mod_revision := o.mod_revision }

/-- JSON shape of a put response, as read by `Revision._parse`. -/
structure RevisionJson where
  header : Option HeaderJson
  prev_kv : Option KeyValueJson
deriving DecidableEq, Repr

/-- Embedding of the `Revision` record (src/txaioetcd/_types.py). -/
structure Revision where
  header : Option Header
  previous : Option KeyValue
deriving DecidableEq, Repr

/-- Embedding of `Revision._parse`. -/
def Revision.parse (o : RevisionJson) : Revision :=
  { header := o.header.map Header.parse,
    previous := o.prev_kv.map KeyValue.parse }

/-- JSON shape of a delete-range response, as read by
`Deleted._parse`. -/
structure DeletedJson where
  deleted : Option Int
  header : Option HeaderJson
  prev_kvs : Option (List KeyValueJson)
deriving DecidableEq, Repr

/-- Embedding of the `Deleted` record (src/txaioetcd/_types.py); its
constructor applies `deleted or 0` and `previous or []`. -/
structure Deleted where
  deleted : Int
  header : Option Header
  previous : List KeyValue
deriving DecidableEq, Repr

/-- Embedding of `Deleted._parse` combined with the constructor: a
missing or zero `deleted` count becomes 0, missing previous key-value
pairs become the empty list. -/
def Deleted.parse (o : DeletedJson) : Deleted :=
  { deleted := match o.deleted with
               | some d => if d = 0 then 0 else d
               | none => 0,
    header := o.header.map Header.parse,
    previous := match o.prev_kvs with
                | some l => l.map KeyValue.parse
                | none => [] }

/-- JSON shape of a range response, as read by `Range._parse`.  The
`count` field is stored by the source without integer parsing; it is
modelled here as the raw optional value. -/
structure RangeJson where
  count : Option Int
  header : Option HeaderJson
  kvs : Option (List KeyValueJson)
deriving DecidableEq, Repr

/-- Embedding of the `Range` record (src/txaioetcd/_types.py). -/
structure RangeResp where
  kvs : List KeyValue
  header : Option Header
  count : Option Int
deriving DecidableEq, Repr

/-- Embedding of `Range._parse`: `kvs` defaults to the empty list when
absent. -/
def RangeResp.parse (o : RangeJson) : RangeResp :=
  { kvs := (o.kvs.getD []).map KeyValue.parse,
    header := o.header.map Header.parse,
    count := o.count }

/-! ## Transaction submit (Client.submit)

The Twisted client (src/txaioetcd/_client_tx.py lines 640-677) and the
asyncio client (src/txaioetcd/_client_aio.py lines 188-226) share the
same response handling, embedded once below.  The parsed JSON body of
the txn response is a dict; each item of its `responses` list is itself
a dict with one tag key.  Such an item is modelled as the list of its
entries, an entry being the tag together with its payload. -/

/-- One entry (key-value pair) of a response item dict.  The tag string
of the dict key is encoded in the constructor; a tag other than the
three recognized ones is `unknown`. -/
inductive RespEntry
  | response_put (o : RevisionJson)
  | response_delete_range (o : DeletedJson)
  | response_range (o : RangeJson)
  | unknown (tag : String)
deriving DecidableEq, Repr

/-- A response item: the entries of one dict in the `responses` list. -/
abbrev RespItem := List RespEntry

/-- A decoded per-operation response: `Revision` for a put, `Deleted`
for a delete-range, `RangeResp` for a range. -/
inductive DecodedResp
  | revision (r : Revision)
  | deleted (d : Deleted)
  | range (r : RangeResp)
deriving DecidableEq, Repr

/-- Decoding of one response item inside `Client.submit`: an item whose
dict does not have exactly one key, or whose single key is not one of
the three recognized tags, raises an exception. -/
def decodeRespItem : RespItem → Except String DecodedResp
  | [e] =>
      match e with
      | .response_put o => .ok (.revision (Revision.parse o))
      | .response_delete_range o => .ok (.deleted (Deleted.parse o))
      | .response_range o => .ok (.range (RangeResp.parse o))
      | .unknown _ => .error "response item bogus or not implemented"
  | _ => .error "bogus transaction response: multiple response tags in item"

/-- The decoding loop over the `responses` list of `Client.submit`:
items are decoded left to right, the first malformed item raises. -/
def decodeResponses : List RespItem → Except String (List DecodedResp)
  | [] => .ok []
  | r :: rest =>
      match decodeRespItem r with
      | .error e => .error e
      | .ok d =>
          match decodeResponses rest with
          | .error e => .error e
          | .ok ds => .ok (d :: ds)

/-- JSON shape of the kv/txn response body as consumed by
`Client.submit`: presence of the `error` key is modelled by `error`
being `some`; `responses` defaults to the empty list and `succeeded`
to false when absent. -/
structure TxnRespJson where
  error : Option (Option Int × Option String)
  header : Option HeaderJson
  responses : Option (List RespItem)
  succeeded : Option Bool
deriving DecidableEq, Repr

/-- Embedding of the `Success` outcome (src/txaioetcd/_types.py). -/
structure Success where
  header : Option Header
  responses : List DecodedResp
deriving DecidableEq, Repr

/-- The exceptional outcomes of `Client.submit`: a structured etcd
error, the `Failed` branch outcome, or a raised exception on a
malformed response. -/
inductive SubmitErr
  | etcdError (code : Option Int) (message : Option String)
  | failed (header : Option Header) (responses : List DecodedResp)
  | protocolError (msg : String)
deriving DecidableEq, Repr

/-- Embedding of the response handling of `Client.submit`
(src/txaioetcd/_client_tx.py lines 647-677 and the identical
src/txaioetcd/_client_aio.py lines 195-226), applied to the parsed
JSON body of the txn response. -/
def submit (obj : TxnRespJson) : Except SubmitErr Success :=
  match obj.error with
  | some e => .error (.etcdError e.1 e.2)
  | none =>
      let header := obj.header.map Header.parse
      match decodeResponses (obj.responses.getD []) with
      | .error m => .error (.protocolError m)
      | .ok rs =>
          if obj.succeeded.getD false then .ok { header := header, responses := rs }
          else .error (.failed header rs)

/-! ## DbTransaction (src/txaioetcd/_database.py)

The write buffer is a Python dict from physical key to a pair
`(op, data)` with `op` one of `PUT`/`DEL`; it is modelled as an
insertion-ordered association list with unique keys, updated with dict
semantics (overwrite in place, append when new). -/

/-- A buffered entry: `(DbTransaction.PUT, data)` or
`(DbTransaction.DEL, None)`. -/
inductive BufOp
  | put (data : Bytes)
  | del
deriving DecidableEq, Repr

/-- The transaction write buffer. -/
abbrev Buffer := List (Bytes × BufOp)

/-- Dict assignment `self._buffer[key] = (op, data)`: overwrite the
entry in place when the key is present, append otherwise. -/
def bufAssign (buf : Buffer) (k : Bytes) (op : BufOp) : Buffer :=
  if buf.any (fun e => e.1 == k) then
    buf.map (fun e => if e.1 == k then (k, op) else e)
  else
    buf ++ [(k, op)]

/-- Dict lookup in the buffer. -/
def bufLookup (buf : Buffer) (k : Bytes) : Option BufOp :=
  (buf.find? (fun e => e.1 == k)).map (fun e => e.2)

/-- Embedding of `DbTransaction.put` (buffer mutation only; the stats
counter is not modelled). -/
def DbTransaction.put (buf : Buffer) (key data : Bytes) : Buffer :=
  bufAssign buf key (.put data)

/-- Embedding of `DbTransaction.delete` (buffer mutation only). -/
def DbTransaction.delete (buf : Buffer) (key : Bytes) : Buffer :=
  bufAssign buf key .del

/-- A transaction operation as assembled by `DbTransaction.__aexit__`:
`OpSet(key, data)` for a buffered put, `OpDel(key)` for a buffered
delete (`OpDel` wraps the byte key into a single-key `KeySet`; only the
key matters here). -/
inductive TxOp
  | opSet (key value : Bytes)
  | opDel (key : Bytes)
deriving DecidableEq, Repr

/-- Embedding of the `Transaction` value built by `__aexit__`:
comparators, success branch, failure branch.  Comparators never occur
in the commit path, so their type is irrelevant; the unit type stands
for `Comp`. -/
structure Transaction where
  compare : List Unit
  success : List TxOp
  failure : List TxOp
deriving DecidableEq, Repr

/-- The Python attribute `self._committed` is untyped: the abort path
stores the integer -1, the commit path stores the full `submit`
result object. -/
inductive CommittedVal
  | int (i : Int)
  | resp (r : Success)
deriving DecidableEq, Repr

/-- The mutable state of a `DbTransaction`: `_revision` (set on enter),
`_buffer` (a dict while the scope is open, `None` outside), and
`_committed`. -/
structure TxnState where
  revision : Option Int
  buffer : Option Buffer
  committed : Option CommittedVal
deriving DecidableEq, Repr

/-- Embedding of `DbTransaction.__aexit__` (src/txaioetcd/_database.py
lines 141-187).  `excRaised` is true when the scope is exited with an
exception (`exc_type is not None`).  The network is modelled by passing
`submitRes`, the value `client.submit` would return; the second
component of the result is the transaction that was submitted, `none`
when no submit happened.  The outer `none` models the AssertionError
when `_revision` is `None`, and the unreachable access of a `None`
buffer. -/
def DbTransaction.aexit (st : TxnState) (excRaised : Bool)
    (submitRes : Success) : Option (TxnState × Option Transaction) :=
  if st.revision.isNone then none
  else if excRaised then
    some ({ st with buffer := none, committed := some (.int (-1)) }, none)
  else
    match st.buffer with
    | none => none
    | some buf =>
        if buf.isEmpty then
          some ({ st with buffer := none }, none)
        else
          let ops := buf.map (fun e =>
            match e.2 with
            | .put d => TxOp.opSet e.1 d
            | .del => TxOp.opDel e.1)
          let txn : Transaction := { compare := [], success := ops, failure := [] }
          some ({ st with buffer := none, committed := some (.resp submitRes) },
                some txn)

/-- Result value of `DbTransaction.get`: the buffered or live value of
a single key, the key-value list of a range get, or Python `None`. -/
inductive GetResult
  | value (v : Bytes)
  | kvs (l : List KeyValue)
  | noneVal
deriving DecidableEq, Repr

/-- Embedding of `DbTransaction.get` (src/txaioetcd/_database.py lines
189-209) inside an open scope (`_buffer` is a dict; the assertion on
`_revision` is the open-scope precondition).  `live` is the `Range`
result the network get would return; the Bool of the result records
whether that round trip was performed.  Note the buffer is consulted
only when `range_end is None`, and the live result shape depends on
the truthiness of `range_end`. -/
def DbTransaction.get (buf : Buffer) (key : Bytes) (range_end : Option Bytes)
    (live : RangeResp) : GetResult × Bool :=
  if range_end = none ∧ (bufLookup buf key).isSome then
    match bufLookup buf key with
    | some (.put d) => (.value d, false)
    | some .del => (.noneVal, false)
    | none => (.noneVal, false)
  else
    match live.kvs with
    | [] => (.noneVal, true)
    | kv :: _ =>
        if bytesTruthy range_end then (.kvs live.kvs, true)
        else
          match kv.value with
          | some v => (.value v, true)
          | none => (.noneVal, true)

/-! ## PersistentMap (src/txaioetcd/_pmap.py) -/

/-- Embedding of `struct.pack` with format `>H`: the 2-byte big-endian
encoding of a uint16.  Python raises struct.error outside [0, 65535];
theorems restrict to that range, the definition wraps modulo 2^16. -/
def pack16 (n : Nat) : Bytes := [(n % 65536) / 256, n % 256]

/-- Embedding of `PersistentMap.__getitem__` (src/txaioetcd/_pmap.py
lines 210-227): build the physical key from the 2-byte slot index and
the serialized application key, call `txn.get` on it (single key), and
when data came back decompress and deserialize it.  `decompress` and
`deserialize` stand for the codec of the concrete map class (the
identity when no compression is configured); Python truthiness makes an
empty data value come out as `None`. -/
def PersistentMap.getItem {V : Type} (slot : Nat) (serKey : Bytes)
    (decompress : Bytes → Bytes) (deserialize : Bytes → V)
    (buf : Buffer) (live : RangeResp) : Option V × Bool :=
  let physKey := pack16 slot ++ serKey
  let r := DbTransaction.get buf physKey none live
  (match r.1 with
   | .value d => if d.isEmpty then none else some (deserialize (decompress d))
   | _ => none,
   r.2)

/-- The range bounds computed by `PersistentMap.select`
(src/txaioetcd/_pmap.py lines 340-348): an explicit (truthy) bound is
serialized WITHOUT the 2-byte slot prefix; an omitted bound defaults to
the slot boundary `pack16 slot` resp. `pack16 (slot + 1)`.  `serialize`
stands for `_serialize_key` of the concrete map class; `some` models a
truthy explicit bound (Python treats a falsy bound as omitted). -/
def PersistentMap.selectBounds {K : Type} (slot : Nat) (serialize : K → Bytes)
    (from_key to_key : Option K) : Bytes × Bytes :=
  (match from_key with
   | some fk => serialize fk
   | none => pack16 slot,
   match to_key with
   | some tk => serialize tk
   | none => pack16 (slot + 1))

/-- The range bounds that the specification ascribes to
`PersistentMap.select`.  Modelled from the spec: a range-get over
`[slot-prefix ++ from, slot-prefix ++ to)`, the default bounds being
the whole slot.  This definition follows the spec words for comparison
with `PersistentMap.selectBounds`, which follows the source. -/
def PersistentMap.selectBoundsSpec {K : Type} (slot : Nat) (serialize : K → Bytes)
    (from_key to_key : Option K) : Bytes × Bytes :=
  (match from_key with
   | some fk => pack16 slot ++ serialize fk
   | none => pack16 slot,
   match to_key with
   | some tk => pack16 slot ++ serialize tk
   | none => pack16 (slot + 1))

/-! ## Lease (src/txaioetcd/_lease.py) -/

/-- The local mutable state of a `Lease`: the `_expired` flag. -/
structure LeaseState where
  expired : Bool
deriving DecidableEq, Repr

/-- The four lease operations that consult and update the expired
flag. -/
inductive LeaseOp
  | remaining
  | keys
  | refresh
  | revoke
deriving DecidableEq, Repr

/-- JSON shape of the lease responses: `TTL` and `keys` at top level
(timetolive responses used by `remaining` and `keys`), `header` at top
level (revoke response), and `result` holding `TTL` and `header` for
the keepalive response used by `refresh`. -/
structure LeaseRespJson where
  TTL : Option Int
  keys : Option (List Bytes)
  header : Option HeaderJson
  result : Option (Option Int × Option HeaderJson)
deriving DecidableEq, Repr

/-- Outcome of a lease operation: the `Expired` exception, a generic
raised exception (bogus refresh response), a TTL, a key list, or a
response header. -/
inductive LeaseOutcome
  | expiredErr
  | exn (msg : String)
  | ttl (t : Int)
  | keyList (ks : List Bytes)
  | header (h : Option Header)
deriving DecidableEq, Repr

/-- Python truthiness of the optional TTL integer: `None` and 0 are
falsy (`if not ttl:`). -/
def ttlTruthy : Option Int → Bool
  | none => false
  | some t => t != 0

/-- Embedding of `Lease.remaining` (src/txaioetcd/_lease.py lines
86-115): fail fast with `Expired` when already expired (no round
trip); otherwise one round trip, and a missing or zero TTL sets the
expired flag and raises `Expired`.  The Bool records whether a round
trip was performed. -/
def Lease.remaining (st : LeaseState) (resp : LeaseRespJson) :
    LeaseState × LeaseOutcome × Bool :=
  if st.expired then (st, .expiredErr, false)
  else if ttlTruthy resp.TTL then
    (st, .ttl (resp.TTL.getD 0), true)
  else
    ({ expired := true }, .expiredErr, true)

/-- Embedding of `Lease.keys` (src/txaioetcd/_lease.py lines 118-148):
same expired handling as `remaining`; on success the attached keys
(base64-decoded, modelled as identity) with `[]` as default. -/
def Lease.keys (st : LeaseState) (resp : LeaseRespJson) :
    LeaseState × LeaseOutcome × Bool :=
  if st.expired then (st, .expiredErr, false)
  else if ttlTruthy resp.TTL then
    (st, .keyList (resp.keys.getD []), true)
  else
    ({ expired := true }, .expiredErr, true)

/-- Embedding of `Lease.revoke` (src/txaioetcd/_lease.py lines
150-178): fail fast when expired; otherwise one round trip, parse the
header, set the expired flag, return the header. -/
def Lease.revoke (st : LeaseState) (resp : LeaseRespJson) :
    LeaseState × LeaseOutcome × Bool :=
  if st.expired then (st, .expiredErr, false)
  else
    ({ expired := true }, .header (resp.header.map Header.parse), true)

/-- Embedding of `Lease.refresh` (src/txaioetcd/_lease.py lines
180-216): fail fast when expired; a response without `result` raises a
generic exception (state unchanged); a missing or zero TTL inside
`result` sets the expired flag and raises `Expired`; otherwise the
expired flag is (re)set to false and the header returned. -/
def Lease.refresh (st : LeaseState) (resp : LeaseRespJson) :
    LeaseState × LeaseOutcome × Bool :=
  if st.expired then (st, .expiredErr, false)
  else
    match resp.result with
    | none => (st, .exn "bogus lease refresh response", true)
    | some res =>
        if ttlTruthy res.1 then
          ({ expired := false }, .header (res.2.map Header.parse), true)
        else
          ({ expired := true }, .expiredErr, true)

/-- Dispatch of one lease operation. -/
def leaseStep (op : LeaseOp) (st : LeaseState) (resp : LeaseRespJson) :
    LeaseState × LeaseOutcome × Bool :=
  match op with
  | .remaining => Lease.remaining st resp
  | .keys => Lease.keys st resp
  | .refresh => Lease.refresh st resp
  | .revoke => Lease.revoke st resp

/-- Run a sequence of lease operations with their server responses,
collecting each outcome together with its round-trip flag. -/
def leaseRun (st : LeaseState) : List (LeaseOp × LeaseRespJson) →
    LeaseState × List (LeaseOutcome × Bool)
  | [] => (st, [])
  | (op, resp) :: rest =>
      let s := leaseStep op st resp
      let r := leaseRun s.1 rest
      (r.1, (s.2.1, s.2.2) :: r.2)

/-! ## Watch stream receiver (src/txaioetcd/_client_tx.py lines
104-146) -/

/-- The record separator of the streaming gateway responses:
newline. -/
def SEP : Nat := 10

/-- Position of the first separator in the buffer, as Python
`bytes.find` (but `none` instead of -1 when absent). -/
def findSep : Bytes → Option Nat
  | [] => none
  | b :: rest =>
      if b = SEP then some 0
      else (findSep rest).map (· + 1)

/-- Embedding of the reassembly loop of `_StreamingReceiver.dataReceived`
applied to the current buffer: while a separator is found at an index
`i > 0`, the chunk before it is extracted (to be JSON-parsed and its
events delivered to the callback) and the buffer advances past the
separator; a separator at index 0, like an absent separator, breaks the
loop.  The result is the final buffer and the list of extracted
complete chunks in order. -/
def processBuf (buf : Bytes) : Bytes × List Bytes :=
  match h : findSep buf with
  | some i =>
      if hi : i > 0 then
        let chunk := buf.take i
        let rest := buf.drop (i + 1)
        let r := processBuf rest
        (r.1, chunk :: r.2)
      else (buf, [])
  | none => (buf, [])
  termination_by buf.length
  decreasing_by
    have hlen : 0 < buf.length := by
      cases buf with
      | nil => simp [findSep] at h
      | cons b bs => simp
    simp only [List.length_drop]
    omega

/-- Embedding of `_StreamingReceiver.dataReceived`: append the received
data to the buffer, then run the reassembly loop. -/
def dataReceived (buf data : Bytes) : Bytes × List Bytes :=
  processBuf (buf ++ data)

/-- Feed a sequence of byte chunks to the receiver, collecting all
extracted complete chunks in order. -/
def feedAll (buf : Bytes) : List Bytes → Bytes × List Bytes
  | [] => (buf, [])
  | d :: ds =>
      let r := dataReceived buf d
      let rr := feedAll r.1 ds
      (rr.1, r.2 ++ rr.2)

/-! ## Concrete fixtures used to evaluate the embedding -/

/-- A concrete accepted txn response: header with revision 42, empty
responses list, `succeeded` true. -/
def sampleOkResp : TxnRespJson :=
  { error := none, header := some ⟨some 1, some 42, some 2, some 3⟩,
    responses := some [], succeeded := some true }

/-- A concrete txn response whose second item is malformed (an empty
dict). -/
def sampleBadItems : List RespItem :=
  [[RespEntry.response_put ⟨none, none⟩], []]

/-- A concrete txn response carrying `sampleBadItems`. -/
def sampleBadResp : TxnRespJson :=
  { error := none, header := none,
    responses := some sampleBadItems, succeeded := some true }

/-- A concrete submit result: header with revision 42, no responses. -/
def sampleSubmitRes : Success :=
  { header := some ⟨some 1, some 42, some 2, some 3⟩, responses := [] }

/-- A concrete open transaction state with one buffered put and one
buffered delete. -/
def sampleTxnSt : TxnState :=
  { revision := some 7, buffer := some [([1], .put [2]), ([3], .del)],
    committed := none }

/-- A concrete write buffer holding a put of value `[9]` under key
`[5]`. -/
def sampleBuf : Buffer := [([5], BufOp.put [9])]

/-- A concrete live range result with a single key-value pair. -/
def sampleLive : RangeResp :=
  { kvs := [{ key := some [5], value := some [7], version := some 1,
              create_revision := some 1, mod_revision := some 1 }],
    header := none, count := some 1 }

/-- A concrete lease response with a missing TTL. -/
def sampleLeaseResp : LeaseRespJson :=
  { TTL := none, keys := none, header := none, result := none }

/-! ## Helper lemmas -/

/-- A byte string precedes every proper extension of itself in the
non-strict lexicographic order. -/
theorem lexLe_self_append (k s : Bytes) : lexLe k (k ++ s) = true := by
  induction k with
  | nil =>
      cases s with
      | nil => simp [lexLe, lexLt]
      | cons a as => simp [lexLe, lexLt]
  | cons a as ih =>
      simp only [lexLe, lexLt, List.cons_append, Bool.or_eq_true, beq_iff_eq,
        List.cons.injEq, lt_irrefl, if_false, true_and] at ih ⊢
      simpa using ih

/-- Replacing the byte after a common initial segment by a strictly
larger one gives a lexicographically larger string, whatever follows
the smaller byte. -/
theorem lexLt_append_lt (init : Bytes) {b c : Nat} (hbc : b < c) (s : Bytes) :
    lexLt (init ++ b :: s) (init ++ [c]) = true := by
  induction init with
  | nil => simp [lexLt, hbc]
  | cons a as ih => simpa [lexLt] using ih

/-! ## Claim theorems -/

/-- C2: for every non-empty byte string `k = init ++ [b]` whose last
byte `b` is below 0xFF, a Prefix `KeySet` over `k` marshals with a
`range_end` equal to `k` with its last byte incremented, and every
byte string `k ++ s` having `k` as a prefix lies lexicographically in
the interval from `k` (inclusive) to that `range_end` (exclusive); a
Single `KeySet` marshals with no `range_end`; a Range `KeySet` (whose
explicit end is a non-empty byte string, as required for the range
classification) marshals with exactly that end. -/
theorem keyset_marshal_range_end (init s key e : Bytes) (b : Nat)
    (hb : b < 255) (he : e ≠ []) :
    (∃ ks, KeySet.mk' (init ++ [b]) none true = .ok ks ∧
       ks.marshal = .ok ⟨init ++ [b], some (init ++ [b + 1])⟩)
    ∧ lexLe (init ++ [b]) ((init ++ [b]) ++ s) = true
    ∧ lexLt ((init ++ [b]) ++ s) (init ++ [b + 1]) = true
    ∧ (∃ ks, KeySet.mk' key none false = .ok ks ∧
       ks.marshal = .ok ⟨key, none⟩)
    ∧ (∃ ks, KeySet.mk' key (some e) false = .ok ks ∧
       ks.marshal = .ok ⟨key, some e⟩) := by
  refine ⟨⟨_, rfl, ?_⟩, ?_, ?_, ⟨_, rfl, ?_⟩, ⟨_, rfl, ?_⟩⟩
  · have hb' : b ≤ 254 := by omega
    simp [KeySet.mk', KeySet.marshal, increment_last_byte, bytesTruthy,
      List.getLast?_concat, List.dropLast_concat, hb']
  · exact lexLe_self_append (init ++ [b]) s
  · simpa [List.append_assoc] using
      lexLt_append_lt init (Nat.lt_succ_self b) s
  · simp [KeySet.mk', KeySet.marshal, bytesTruthy]
  · simp [KeySet.mk', KeySet.marshal, bytesTruthy, he]

/-- Witness for C2 at concrete inputs. -/
theorem keyset_marshal_range_end_witness :
    (97 : Nat) < 255 ∧ ([122] : Bytes) ≠ [] ∧
    ((∃ ks, KeySet.mk' (([] : Bytes) ++ [97]) none true = .ok ks ∧
       ks.marshal = .ok ⟨[] ++ [97], some ([] ++ [97 + 1])⟩)
    ∧ lexLe ([] ++ [97]) (([] ++ [97]) ++ [98]) = true
    ∧ lexLt (([] ++ [97]) ++ [98]) ([] ++ [97 + 1]) = true
    ∧ (∃ ks, KeySet.mk' [65] none false = .ok ks ∧
       ks.marshal = .ok ⟨[65], none⟩)
    ∧ (∃ ks, KeySet.mk' [65] (some [122]) false = .ok ks ∧
       ks.marshal = .ok ⟨[65], some [122]⟩)) :=
  ⟨by decide, by decide,
   keyset_marshal_range_end [] [98] [65] [122] 97 (by decide) (by decide)⟩

/-- A response item that does not consist of exactly one entry, or
whose single entry carries an unrecognized tag, fails to decode. -/
theorem decodeRespItem_error_of_malformed (r : RespItem)
    (h : r.length ≠ 1 ∨ ∃ tag, r = [RespEntry.unknown tag]) :
    ∃ m, decodeRespItem r = .error m := by
  match r with
  | [] => exact ⟨_, rfl⟩
  | [e] =>
      cases e with
      | response_put o => simp at h
      | response_delete_range o => simp at h
      | response_range o => simp at h
      | unknown tag => exact ⟨_, rfl⟩
  | e₁ :: e₂ :: rest => exact ⟨_, rfl⟩

/-- A decoding failure of any member item makes the whole decoding
loop fail. -/
theorem decodeResponses_error_of_mem (items : List RespItem) (r : RespItem)
    (hmem : r ∈ items) (m : String) (hr : decodeRespItem r = .error m) :
    ∃ m', decodeResponses items = .error m' := by
  induction items with
  | nil => simp at hmem
  | cons a rest ih =>
      rcases List.mem_cons.mp hmem with h | h
      · subst h
        exact ⟨m, by simp [decodeResponses, hr]⟩
      · obtain ⟨m', hm'⟩ := ih h
        cases ha : decodeRespItem a with
        | error e => exact ⟨e, by simp [decodeResponses, ha]⟩
        | ok d => exact ⟨m', by simp [decodeResponses, ha, hm']⟩

/-- A successful run of the decoding loop decodes the items pointwise,
in order. -/
theorem decodeResponses_ok_pointwise (items : List RespItem) :
    ∀ rs, decodeResponses items = .ok rs →
    rs.length = items.length ∧
      ∀ i (hi : i < items.length) (hr : i < rs.length),
        decodeRespItem (items.get ⟨i, hi⟩) = .ok (rs.get ⟨i, hr⟩) := by
  induction items with
  | nil =>
      intro rs h
      simp only [decodeResponses] at h
      cases h
      exact ⟨rfl, by intro i hi hr; simp at hi⟩
  | cons r rest ih =>
      intro rs h
      simp only [decodeResponses] at h
      cases hd : decodeRespItem r with
      | error e => rw [hd] at h; simp at h
      | ok d =>
          rw [hd] at h
          cases hrest : decodeResponses rest with
          | error e => rw [hrest] at h; simp at h
          | ok ds =>
              rw [hrest] at h
              cases h
              obtain ⟨hlen, hpt⟩ := ih ds hrest
              refine ⟨by simp [hlen], ?_⟩
              intro i hi hr
              cases i with
              | zero => simpa using hd
              | succ j =>
                  simpa using hpt j (by simpa using hi) (by simpa using hr)

/-- C3: for every transaction response accepted by `submit` (no etcd
error, responses decodable), the outcome is never ambiguous: `submit`
returns a `Success` exactly when the server reported `succeeded` as
true, and otherwise raises `Failed`; both outcomes carry the parsed
response header and the decoded per-operation responses. -/
theorem submit_unambiguous (obj : TxnRespJson) (rs : List DecodedResp)
    (hne : obj.error = none)
    (hd : decodeResponses (obj.responses.getD []) = .ok rs) :
    (obj.succeeded = some true →
       submit obj = .ok { header := obj.header.map Header.parse, responses := rs })
    ∧ (obj.succeeded ≠ some true →
       submit obj = .error (.failed (obj.header.map Header.parse) rs))
    ∧ ((∃ sc, submit obj = .ok sc) ↔ obj.succeeded = some true) := by
  simp only [submit, hne, hd]
  cases h : obj.succeeded with
  | none => simp
  | some b => cases b <;> simp

/-- Witness for C3: a concrete accepted response with `succeeded`
true yields a `Success` carrying header and responses. -/
theorem submit_unambiguous_witness :
    sampleOkResp.error = none
    ∧ decodeResponses (sampleOkResp.responses.getD []) = .ok []
    ∧ submit sampleOkResp
        = .ok { header := some ⟨some 1, some 42, some 2, some 3⟩, responses := [] } :=
  ⟨rfl, rfl, (submit_unambiguous sampleOkResp [] rfl rfl).1 rfl⟩

/-- C4: for every item of the responses list processed by `submit`: an
item without exactly one result tag, or with an unrecognized single
tag, makes `submit` raise (the item is never silently dropped); a
`response_put` item decodes to a `Revision`, a `response_delete_range`
item to a `Deleted`, a `response_range` item to a `RangeResp`; and a
successful decode preserves the order of the list pointwise. -/
theorem submit_items_decoded (obj : TxnRespJson) (items : List RespItem)
    (hne : obj.error = none) (hresp : obj.responses = some items) :
    ((∃ r ∈ items, r.length ≠ 1 ∨ ∃ tag, r = [RespEntry.unknown tag]) →
       ∃ m, submit obj = .error (.protocolError m))
    ∧ (∀ o, decodeRespItem [RespEntry.response_put o]
        = .ok (.revision (Revision.parse o)))
    ∧ (∀ o, decodeRespItem [RespEntry.response_delete_range o]
        = .ok (.deleted (Deleted.parse o)))
    ∧ (∀ o, decodeRespItem [RespEntry.response_range o]
        = .ok (.range (RangeResp.parse o)))
    ∧ (∀ rs, decodeResponses items = .ok rs →
        (submit obj = .ok { header := obj.header.map Header.parse, responses := rs }
          ∨ submit obj = .error (.failed (obj.header.map Header.parse) rs))
        ∧ rs.length = items.length
        ∧ ∀ i (hi : i < items.length) (hr : i < rs.length),
            decodeRespItem (items.get ⟨i, hi⟩) = .ok (rs.get ⟨i, hr⟩)) := by
  refine ⟨?_, fun o => rfl, fun o => rfl, fun o => rfl, ?_⟩
  · rintro ⟨r, hmem, hmal⟩
    obtain ⟨m, hm⟩ := decodeRespItem_error_of_malformed r hmal
    obtain ⟨m', hm'⟩ := decodeResponses_error_of_mem items r hmem m hm
    refine ⟨m', ?_⟩
    simp [submit, hne, hresp, hm']
  · intro rs hok
    obtain ⟨hlen, hpt⟩ := decodeResponses_ok_pointwise items rs hok
    refine ⟨?_, hlen, hpt⟩
    simp only [submit, hne, hresp, Option.getD_some, hok]
    cases obj.succeeded.getD false <;> simp

/-- Witness for C4 at a concrete response: one put item and one
malformed (empty) item; the malformed item makes `submit` raise. -/
theorem submit_items_decoded_witness :
    sampleBadResp.error = none
    ∧ sampleBadResp.responses = some sampleBadItems
    ∧ ((∃ r ∈ sampleBadItems, r.length ≠ 1 ∨ ∃ tag, r = [RespEntry.unknown tag]) →
        ∃ m, submit sampleBadResp = .error (.protocolError m)) :=
  ⟨rfl, rfl, (submit_items_decoded sampleBadResp sampleBadItems rfl rfl).1⟩

/-- C1 counterexample: at a concrete open transaction state with a
non-empty buffer and a concrete submit response whose header revision
is 42, the commit path stores the full submit response object in the
`_committed` attribute, not the header revision integer 42 that the
claim asserts. -/
theorem dbtxn_commit_revision_counterexample :
    ∃ st' txn, DbTransaction.aexit sampleTxnSt false sampleSubmitRes = some (st', txn)
      ∧ sampleSubmitRes.header = some ⟨some 1, some 42, some 2, some 3⟩
      ∧ st'.committed = some (.resp sampleSubmitRes)
      ∧ st'.committed ≠ some (.int 42) := by
  refine ⟨_, _, rfl, rfl, ?_, ?_⟩ <;> decide

/-- C1 as amended: on normal scope exit of an open transaction with a
non-empty buffer, every buffered PUT entry becomes an `OpSet` and every
buffered DEL entry an `OpDel` (in buffer order); the submitted
transaction has an empty comparator list, those operations as the
success branch, and an empty failure branch; and after the submit the
`_committed` attribute holds the full submit response (which carries
the response header), rather than the bare header revision integer. -/
theorem dbtxn_commit_flush (st : TxnState) (buf : Buffer) (r : Success)
    (hrev : st.revision.isSome) (hbuf : st.buffer = some buf) (hne : buf ≠ []) :
    DbTransaction.aexit st false r =
      some ({ st with buffer := none, committed := some (.resp r) },
        some { compare := [],
               success := buf.map (fun e =>
                 match e.2 with
                 | .put d => TxOp.opSet e.1 d
                 | .del => TxOp.opDel e.1),
               failure := [] }) := by
  obtain ⟨v, hv⟩ := Option.isSome_iff_exists.mp hrev
  simp [DbTransaction.aexit, hv, hbuf, hne]

/-- Witness for the amended C1 at the concrete fixture state. -/
theorem dbtxn_commit_flush_witness :
    sampleTxnSt.revision.isSome = true
    ∧ sampleTxnSt.buffer = some [([1], .put [2]), ([3], .del)]
    ∧ ([([1], BufOp.put [2]), ([3], BufOp.del)] : Buffer) ≠ []
    ∧ DbTransaction.aexit sampleTxnSt false sampleSubmitRes =
        some ({ sampleTxnSt with
                buffer := none, committed := some (.resp sampleSubmitRes) },
          some { compare := [],
                 success := [TxOp.opSet [1] [2], TxOp.opDel [3]],
                 failure := [] }) :=
  ⟨rfl, rfl, by decide,
   dbtxn_commit_flush sampleTxnSt [([1], .put [2]), ([3], .del)]
     sampleSubmitRes rfl rfl (by decide)⟩

/-- C8: on abnormal scope exit (an exception was raised inside the
scope) the buffer is discarded unconditionally, `_committed` is set to
-1, and no transaction is submitted (the second component `none` means
no store interaction of any kind happened). -/
theorem dbtxn_abort_discards (st : TxnState) (r : Success)
    (hrev : st.revision.isSome) :
    DbTransaction.aexit st true r =
      some ({ st with buffer := none, committed := some (.int (-1)) }, none) := by
  obtain ⟨v, hv⟩ := Option.isSome_iff_exists.mp hrev
  simp [DbTransaction.aexit, hv]

/-- Witness for C8 at the concrete fixture state. -/
theorem dbtxn_abort_discards_witness :
    sampleTxnSt.revision.isSome = true
    ∧ DbTransaction.aexit sampleTxnSt true sampleSubmitRes =
        some ({ sampleTxnSt with
                buffer := none, committed := some (.int (-1)) }, none) :=
  ⟨rfl, dbtxn_abort_discards sampleTxnSt sampleSubmitRes rfl⟩

/-- C6: a single-key read inside an open scope is served from the
buffer when a pending write exists for the physical key (PUT gives the
buffered value, DEL gives `None`, no round trip in either case); only
when the buffer has no entry for the key is the live round trip
performed, and at the `PersistentMap` layer the live value is then
decompressed and decoded. -/
theorem dbtxn_get_buffer_first (buf : Buffer) (key : Bytes)
    (live : RangeResp) (v : Bytes) :
    (bufLookup buf key = some (.put v) →
       DbTransaction.get buf key none live = (.value v, false))
    ∧ (bufLookup buf key = some .del →
       DbTransaction.get buf key none live = (.noneVal, false))
    ∧ (bufLookup buf key = none →
       (DbTransaction.get buf key none live).2 = true)
    ∧ (∀ (V : Type) (slot : Nat) (serKey : Bytes)
         (decompress : Bytes → Bytes) (deserialize : Bytes → V),
       bufLookup buf (pack16 slot ++ serKey) = none →
       PersistentMap.getItem slot serKey decompress deserialize buf live
         = (match live.kvs with
            | [] => none
            | kv :: _ =>
                match kv.value with
                | some d =>
                    if d.isEmpty then none
                    else some (deserialize (decompress d))
                | none => none,
            true)) := by
  refine ⟨?_, ?_, ?_, ?_⟩
  · intro h; simp [DbTransaction.get, h]
  · intro h; simp [DbTransaction.get, h]
  · intro h
    simp only [DbTransaction.get, h]
    cases live.kvs with
    | nil => simp
    | cons kv rest => cases hx : kv.value <;> simp [bytesTruthy, hx]
  · intro V slot serKey decompress deserialize h
    simp only [PersistentMap.getItem, DbTransaction.get, h]
    cases live.kvs with
    | nil => simp
    | cons kv rest => cases hx : kv.value <;> simp [bytesTruthy, hx]

/-- Witness for C6: the buffered put under key `[5]` is served from the
buffer with no round trip, and under the unbuffered key `[6]` the round
trip happens. -/
theorem dbtxn_get_buffer_first_witness :
    bufLookup sampleBuf [5] = some (.put [9])
    ∧ DbTransaction.get sampleBuf [5] none sampleLive = (.value [9], false)
    ∧ bufLookup sampleBuf [6] = none
    ∧ (DbTransaction.get sampleBuf [6] none sampleLive).2 = true :=
  ⟨by decide,
   (dbtxn_get_buffer_first sampleBuf [5] sampleLive [9]).1 (by decide),
   by decide,
   (dbtxn_get_buffer_first sampleBuf [6] sampleLive [9]).2.2.1 (by decide)⟩

/-- C10: a range read inside an open scope (non-null `range_end`)
never consults the write buffer: the result is the same as with an
empty buffer, and the live round trip is always performed. -/
theorem dbtxn_range_get_ignores_buffer (buf : Buffer) (key e : Bytes)
    (live : RangeResp) :
    DbTransaction.get buf key (some e) live
      = DbTransaction.get [] key (some e) live
    ∧ (DbTransaction.get buf key (some e) live).2 = true := by
  have h₁ : ¬(some e = none ∧ (bufLookup buf key).isSome) := by simp
  have h₂ : ¬(some e = none ∧ (bufLookup ([] : Buffer) key).isSome) := by simp
  constructor
  · simp only [DbTransaction.get]
    rw [if_neg h₁, if_neg h₂]
  · simp only [DbTransaction.get]
    rw [if_neg h₁]
    cases live.kvs with
    | nil => simp
    | cons kv rest =>
        cases hbt : bytesTruthy (some e) <;> cases hx : kv.value <;>
          simp [hbt, hx]

/-- Witness for C10 at a concrete buffer, key, range end and live
result: the buffered put under the key is invisible to the range
read. -/
theorem dbtxn_range_get_ignores_buffer_witness :
    DbTransaction.get sampleBuf [5] (some [6]) sampleLive
      = DbTransaction.get [] [5] (some [6]) sampleLive
    ∧ (DbTransaction.get sampleBuf [5] (some [6]) sampleLive).2 = true :=
  dbtxn_range_get_ignores_buffer sampleBuf [5] [6] sampleLive

/-- C7: the local expired flag of a lease is terminal.  When it is
set, every operation returns `Expired` at once, with no round trip and
no state change — in particular over any sequence of subsequent
operations; and it becomes set exactly when `remaining`/`keys` observe
a missing or zero TTL, when `refresh` observes a missing or zero TTL
inside the keepalive result, or when `revoke` completes. -/
theorem lease_expired_terminal (st : LeaseState) (op : LeaseOp)
    (resp : LeaseRespJson) :
    (st.expired = true → leaseStep op st resp = (st, .expiredErr, false))
    ∧ (st.expired = false → (op = .remaining ∨ op = .keys) →
        ttlTruthy resp.TTL = false →
        (leaseStep op st resp).1.expired = true
          ∧ (leaseStep op st resp).2.1 = .expiredErr
          ∧ (leaseStep op st resp).2.2 = true)
    ∧ (st.expired = false → ∀ res, resp.result = some res →
        ttlTruthy res.1 = false →
        (leaseStep .refresh st resp).1.expired = true
          ∧ (leaseStep .refresh st resp).2.1 = .expiredErr)
    ∧ (st.expired = false → (leaseStep .revoke st resp).1.expired = true)
    ∧ (∀ steps, st.expired = true →
        (leaseRun st steps).1.expired = true
          ∧ ∀ o ∈ (leaseRun st steps).2, o = (.expiredErr, false)) := by
  have hfast : ∀ (o : LeaseOp), st.expired = true →
      leaseStep o st resp = (st, .expiredErr, false) := by
    intro o h
    cases o <;> simp [leaseStep, Lease.remaining, Lease.keys, Lease.refresh,
      Lease.revoke, h]
  refine ⟨hfast op, ?_, ?_, ?_, ?_⟩
  · rintro h (rfl | rfl) ht <;>
      simp [leaseStep, Lease.remaining, Lease.keys, h, ht]
  · intro h res hres ht
    simp [leaseStep, Lease.refresh, h, hres, ht]
  · intro h
    simp [leaseStep, Lease.revoke, h]
  · intro steps h
    induction steps with
    | nil => exact ⟨h, by intro o ho; simp [leaseRun] at ho⟩
    | cons p rest ih =>
        have hstep : leaseStep p.1 st p.2 = (st, .expiredErr, false) := by
          cases hp : p.1 <;> simp [leaseStep, Lease.remaining, Lease.keys,
            Lease.refresh, Lease.revoke, h]
        refine ⟨?_, ?_⟩
        · simpa [leaseRun, hstep] using ih.1
        · intro o ho
          simp only [leaseRun, hstep] at ho
          simp at ho
          rcases ho with ho | ho
          · exact ho
          · exact ih.2 o ho

/-- Witness for C7: an expired lease fails fast on `remaining` and on
a whole subsequent operation sequence. -/
theorem lease_expired_terminal_witness :
    (⟨true⟩ : LeaseState).expired = true
    ∧ leaseStep .remaining ⟨true⟩ sampleLeaseResp = (⟨true⟩, .expiredErr, false)
    ∧ (leaseRun ⟨true⟩ [(.keys, sampleLeaseResp)]).1.expired = true :=
  ⟨rfl,
   (lease_expired_terminal ⟨true⟩ .remaining sampleLeaseResp).1 rfl,
   ((lease_expired_terminal ⟨true⟩ .keys sampleLeaseResp).2.2.2.2
     [(.keys, sampleLeaseResp)] rfl).1⟩

/-- C9: the reassembly loop never consumes a separator found at buffer
index 0 (the loop condition is `i > 0`), so once the buffer begins
with the separator no further complete message is ever extracted — and
no callback can be delivered — whatever chunks arrive afterwards; the
buffer keeps beginning with the separator forever. -/
theorem watch_sep_at_zero_stalls (t : Bytes) :
    processBuf (SEP :: t) = (SEP :: t, [])
    ∧ ∀ chunks, (feedAll (SEP :: t) chunks).2 = []
        ∧ ∃ t', (feedAll (SEP :: t) chunks).1 = SEP :: t' := by
  have hstep : ∀ u : Bytes, processBuf (SEP :: u) = (SEP :: u, []) := by
    intro u
    simp [processBuf, findSep]
  refine ⟨hstep t, ?_⟩
  intro chunks
  induction chunks generalizing t with
  | nil => exact ⟨rfl, t, rfl⟩
  | cons d ds ih =>
      have h1 : dataReceived (SEP :: t) d = (SEP :: (t ++ d), []) := by
        simp [dataReceived, hstep]
      obtain ⟨h2, t', h3⟩ := ih (t ++ d)
      exact ⟨by simp [feedAll, h1, h2], t', by simp [feedAll, h1, h3]⟩

/-- Witness for C9 at a concrete stalled buffer and chunk sequence. -/
theorem watch_sep_at_zero_stalls_witness :
    processBuf (SEP :: [65]) = (SEP :: [65], [])
    ∧ (feedAll (SEP :: [65]) [[66, SEP], [SEP]]).2 = [] :=
  ⟨(watch_sep_at_zero_stalls [65]).1,
   ((watch_sep_at_zero_stalls [65]).2 [[66, SEP], [SEP]]).1⟩

/-- C5 (code evaluated at the failing input): for a map in slot 3 whose
key codec is the identity, an explicit from bound serializing to the
byte `0x61` makes `select` issue its range-get from `[0x61]` — the
2-byte slot prefix is NOT prepended — while the specified bounds are
`pack16 3 ++ [0x61]`; the two agree only when both bounds are
omitted. -/
theorem select_bounds_missing_slot_prefix :
    PersistentMap.selectBounds 3 (fun k : Bytes => k) (some [97]) none
      = ([97], pack16 4)
    ∧ PersistentMap.selectBoundsSpec 3 (fun k : Bytes => k) (some [97]) none
      = ([0, 3, 97], pack16 4)
    ∧ PersistentMap.selectBounds 3 (fun k : Bytes => k) (some [97]) none
      ≠ PersistentMap.selectBoundsSpec 3 (fun k : Bytes => k) (some [97]) none
    ∧ PersistentMap.selectBounds 3 (fun k : Bytes => k) none none
      = PersistentMap.selectBoundsSpec 3 (fun k : Bytes => k) none none := by
  refine ⟨rfl, rfl, ?_, rfl⟩
  decide

end TxaioEtcd
